import Mathlib

/-!
# Verification of the react-native jsinspector-modern CDP backend excerpt

This development embeds, in Lean 4, the behavior of the modern React Native
CDP (Chrome DevTools Protocol) inspector backend excerpted in this repository:

* `ReactCommon/jsinspector-modern/tests/JsiIntegrationTest.cpp` — the
  integration test fixture pinning down the observable protocol traffic of a
  connected session (request/response pairing, unknown-method errors,
  `Runtime.evaluate`, execution-context notifications around reload, and the
  connection teardown contract);
* `ReactCommon/react/runtime/hermes/HermesInstance.cpp` — the Hermes glue:
  `HermesInstanceRuntimeAdapter::tickleJs`, the runtime-task executor built in
  `HermesJSRuntime::createAgentDelegate`, and the GC heap-size configuration in
  `HermesInstance::createJSRuntime`.

The router/target-tree implementation itself (PageTarget, InstanceTarget,
RuntimeTarget, SessionState, ScopedExecutor) is not part of the excerpt — only
its tests and public headers are — so those components are modelled from the
specification, with the behavior matching the interaction sequences the
in-repository integration test asserts. Code that is present in the excerpt
(`HermesInstance.cpp`) is embedded directly from the source.
-/

namespace RnInspector

/-! ## Session state

Modelled from the spec: `SessionState` is a plain data holder for an active
debugging session — whether the Runtime domain is enabled and the
execution-context id counter — surviving reloads and reset only when the
session ends. -/

structure SessionState where
  runtimeDomainEnabled : Bool
  lastExecutionContextId : Nat
deriving DecidableEq, Repr

def initialSessionState : SessionState :=
  { runtimeDomainEnabled := false, lastExecutionContextId := 0 }

/-- Modelled from the spec: `nextExecutionContextId()` returns a strictly
increasing integer and never returns a value already issued in the same
session. Returns the freshly issued id together with the updated state. -/
def nextExecutionContextId (s : SessionState) : Nat × SessionState :=
  (s.lastExecutionContextId + 1,
   { s with lastExecutionContextId := s.lastExecutionContextId + 1 })

/-! ## Protocol messages

Requests are UTF-8 JSON objects shaped `{id?, method, params?}`; the method is
a domain-qualified name such as `"Runtime.evaluate"`, held here as the split
domain/method pair. The only request parameter the modelled methods consume is
the `expression` of `Runtime.evaluate`. -/

structure Request where
  id : Option Nat
  domain : String
  method : String
  expression : Option String
deriving DecidableEq, Repr

/-- A remote object as reported inside a `Runtime.evaluate` result, e.g.
`{"type": "number", "value": 42}`. Only numeric results are modelled. -/
inductive RemoteObject
  | number (value : Int)
deriving DecidableEq, Repr

/-- The `result` payload of a success response: `{}` or
`{"result": <remote object>}`. -/
inductive ResultPayload
  | empty
  | evalResult (result : RemoteObject)
deriving DecidableEq, Repr

/-- One message emitted toward the frontend: a success response
`{id, result}`, an error response `{id, error: {code, ...}}`, or a
notification `{method, params?}` (whose only modelled parameter is the
execution-context id carried by `Runtime.executionContextCreated`). -/
inductive Event
  | response (id : Nat) (result : ResultPayload)
  | errorResponse (id : Nat) (code : Int)
  | notification (method : String) (executionContextId : Option Nat)
deriving DecidableEq, Repr

/-- The well-known JSON-RPC "method not found" error code. -/
def methodNotFoundCode : Int := -32601

/-- The JSON-RPC "internal error" code, used when the engine delegate fails. -/
def internalErrorCode : Int := -32603

/-- Ids of the responses (success or error) among a list of emitted events;
notifications carry no request id and are excluded. -/
def responseIds (events : List Event) : List Nat :=
  events.filterMap fun e =>
    match e with
    | Event.response n _ => some n
    | Event.errorResponse n _ => some n
    | Event.notification _ _ => none

/-- Execution-context ids announced by `Runtime.executionContextCreated`
notifications, in emission order. -/
def issuedContextIds (events : List Event) : List Nat :=
  events.filterMap fun e =>
    match e with
    | Event.notification m i =>
        if m == "Runtime.executionContextCreated" then i else none
    | _ => none

/-! ## Message routing

Modelled from the spec: `PageTarget::sendMessage` extracts the method's domain
and dispatches to Page-level handling or forwards down to the addressed
Instance/Runtime; a domain/method pair unrecognized at every level yields a
"method not found" error response echoing the request id. The recognized
methods are the ones exercised by the in-repository integration test:
`Page.reload`, `Runtime.enable`, `Runtime.evaluate`. -/

def pageHandles (domain method : String) : Bool :=
  domain == "Page" && method == "reload"

def instanceHandles (_domain _method : String) : Bool :=
  false

def runtimeHandles (domain method : String) : Bool :=
  domain == "Runtime" && (method == "enable" || method == "evaluate")

/-- Reply to the request's id when it has one; notifications (no id) are never
answered. -/
def respond (id : Option Nat) (r : ResultPayload) : List Event :=
  match id with
  | some n => [Event.response n r]
  | none => []

/-- Accumulating decimal-numeral reader; fails on any non-digit character. -/
def parseNatDigits (acc : Nat) : List Char → Option Nat
  | [] => some acc
  | c :: cs => if c.isDigit then parseNatDigits (acc * 10 + (c.toNat - 48)) cs else none

/-- Modelled from the spec: evaluation of a JavaScript expression by the live
Hermes runtime (the engine itself is an external collaborator; only
nonnegative numeric-literal expressions, as exercised by the test, are
modelled — anything else is an evaluation failure). -/
def evalExpression (expression : String) : Option Int :=
  if expression.data.isEmpty then none
  else (parseNatDigits 0 expression.data).map fun n => Int.ofNat n

/-- Modelled from the spec: the host-triggered reload sequence — unregister the
current instance and its runtime, notify the frontend that execution contexts
were cleared, create a new Instance + Runtime, and notify the frontend of the
new execution context (allocating a fresh id from the session). -/
def reloadPage (s : SessionState) : SessionState × List Event :=
  let p := nextExecutionContextId s
  (p.2,
   [Event.notification "Runtime.executionContextsCleared" none,
    Event.notification "Runtime.executionContextCreated" (some p.1)])

/-- `Page.reload` triggers the host reload sequence, then answers the request. -/
def handlePageReload (s : SessionState) (id : Option Nat) :
    SessionState × List Event :=
  let p := reloadPage s
  (p.1, p.2 ++ respond id ResultPayload.empty)

/-- `Runtime.enable` enables the Runtime domain for the session, answers the
request, and announces the already-live execution context. Per the known
limitation documented by the in-repository test, the `executionContextCreated`
notification is emitted after the id-matched response rather than before it. -/
def handleRuntimeEnable (s : SessionState) (id : Option Nat) :
    SessionState × List Event :=
  let p := nextExecutionContextId s
  ({ p.2 with runtimeDomainEnabled := true },
   respond id ResultPayload.empty ++
     [Event.notification "Runtime.executionContextCreated" (some p.1)])

/-- `Runtime.evaluate` forwards the expression to the engine delegate; a
delegate failure is caught and converted into an error response referencing
the original request id, never a crash. -/
def handleRuntimeEvaluate (s : SessionState) (id : Option Nat)
    (expression : Option String) : SessionState × List Event :=
  match expression.bind evalExpression with
  | some v =>
      (s, respond id (ResultPayload.evalResult (RemoteObject.number v)))
  | none =>
      (s,
       match id with
       | some n => [Event.errorResponse n internalErrorCode]
       | none => [])

/-- Modelled from the spec: routing of one incoming request through the
Page/Instance/Runtime hierarchy. An unrecognized domain/method pair yields a
"method not found" error response echoing the id; requests without an id are
never answered. -/
def handleRequest (s : SessionState) (r : Request) : SessionState × List Event :=
  if pageHandles r.domain r.method then
    handlePageReload s r.id
  else if instanceHandles r.domain r.method then
    (s, [])
  else if runtimeHandles r.domain r.method then
    if r.method == "enable" then
      handleRuntimeEnable s r.id
    else
      handleRuntimeEvaluate s r.id r.expression
  else
    match r.id with
    | some n => (s, [Event.errorResponse n methodNotFoundCode])
    | none => (s, [])

/-! ## Session traces

A session's lifetime is a sequence of operations: frontend requests and
host-triggered reloads. The session state threads through; emitted events
accumulate in order. -/

inductive SessionOp
  | request (r : Request)
  | hostReload
deriving DecidableEq, Repr

def stepSession (s : SessionState) (op : SessionOp) : SessionState × List Event :=
  match op with
  | SessionOp.request r => handleRequest s r
  | SessionOp.hostReload => reloadPage s

def runSession (s : SessionState) (ops : List SessionOp) :
    SessionState × List Event :=
  match ops with
  | [] => (s, [])
  | op :: rest =>
      let p := stepSession s op
      let q := runSession p.1 rest
      (q.1, p.2 ++ q.2)

/-! ## Connection teardown

Modelled from the spec: `PageTarget::connect` returns a local connection whose
destruction or `disconnect()` tears the session down, notifying the remote
side exactly once via `onDisconnect`, even under repeated or out-of-order
teardown calls (idempotent). The state tracks whether the session is already
torn down and how many `onDisconnect` calls the remote connection observed. -/

structure ConnectionState where
  disconnected : Bool
  onDisconnectCount : Nat
deriving DecidableEq, Repr

/-- The state of a freshly established connection: live, remote side not yet
notified of any disconnect. -/
def freshConnection : ConnectionState :=
  { disconnected := false, onDisconnectCount := 0 }

/-- Modelled from the spec: `ILocalConnection::disconnect` — tear the session
down and notify the remote side exactly once; a repeated call is absorbed
idempotently. -/
def disconnectConnection (c : ConnectionState) : ConnectionState :=
  if c.disconnected then c
  else { disconnected := true, onDisconnectCount := c.onDisconnectCount + 1 }

/-- Modelled from the spec: destroying the local connection tears the session
down the same way an explicit `disconnect()` does. -/
def destroyConnection (c : ConnectionState) : ConnectionState :=
  disconnectConnection c

inductive TeardownOp
  | disconnectCall
  | destroyCall
deriving DecidableEq, Repr

def applyTeardown (c : ConnectionState) (op : TeardownOp) : ConnectionState :=
  match op with
  | TeardownOp.disconnectCall => disconnectConnection c
  | TeardownOp.destroyCall => destroyConnection c

def runTeardown (c : ConnectionState) (ops : List TeardownOp) : ConnectionState :=
  ops.foldl applyTeardown c

/-! ## Weak-pointer lifetimes (HermesInstance.cpp)

`HermesInstance.cpp` guards deferred work with `std::weak_ptr`: a queued
callback locks the weak pointer when it runs and silently returns when the
owner is gone. A `World` records which shared objects (named by ids) are
currently alive; `weakLock` is `std::weak_ptr::lock`. -/

structure World where
  alive : Nat → Bool

def weakLock (w : World) (p : Nat) : Option Nat :=
  if w.alive p then some p else none

/-- Observable effect of the closure queued by
`HermesInstanceRuntimeAdapter::tickleJs`: calling the runtime's global
`__tickleJs` function. -/
inductive JsEffect
  | calledTickleJs (runtime : Nat)
deriving DecidableEq, Repr

/-- Embedded from `HermesInstanceRuntimeAdapter::tickleJs`
(`HermesInstance.cpp`): the closure posted to the message queue thread
captures `weakRuntime`, a weak reference to the owning Hermes runtime; when it
is due to run in world `w` it locks the weak reference, returns silently if
the runtime is gone, and otherwise calls `__tickleJs` on the live runtime. -/
def tickleJsTask (weakRuntime : Nat) (w : World) : List JsEffect :=
  match weakLock w weakRuntime with
  | none => []
  | some runtime => [JsEffect.calledTickleJs runtime]

/-- Observable effect of a task posted through the runtime-task executor that
`HermesJSRuntime::createAgentDelegate` supplies: the wrapped function ran on
the given message queue thread with the given live runtime. -/
inductive TaskEffect
  | ranWithRuntime (thread runtime : Nat)
deriving DecidableEq, Repr

/-- Modelled from the spec: `MessageQueueThread::runOnQueue` (host thread
management is an external collaborator) — a queued task executes on the thread
only if the thread still exists when the task is due to run; a destroyed
thread's queue never runs. -/
def runOnQueue (wRun : World) (thread : Nat) (task : World → List TaskEffect) :
    List TaskEffect :=
  if wRun.alive thread then task wRun else []

/-- Embedded from the runtime-task executor lambda in
`HermesJSRuntime::createAgentDelegate` (`HermesInstance.cpp`): the lambda
captures weak references to the message queue thread and the Hermes runtime.
Invoked in world `wPost`, it locks the thread and returns silently if it is
gone; otherwise it posts onto the queue a closure that, when due to run in
world `wRun`, locks the runtime, returns silently if it is gone, and otherwise
runs the wrapped function with the live runtime. -/
def runtimeTaskExecutor (wPost wRun : World) (msgQueueThread runtime : Nat) :
    List TaskEffect :=
  match weakLock wPost msgQueueThread with
  | none => []
  | some thread =>
      runOnQueue wRun thread fun w =>
        match weakLock w runtime with
        | none => []
        | some r => [TaskEffect.ranWithRuntime thread r]

/-! ## Heap-size configuration (HermesInstance.cpp)

`HermesInstance::createJSRuntime` reads `ios_hermes:rn_heap_size_mb` from the
`ReactNativeConfig` (0 when the config object is absent) and configures the
Hermes GC maximum heap size. The config is modelled as the optional `int64_t`
value the lookup returns. `::hermes::vm::gcheapsize_t` is `uint32_t`, so the
`static_cast` of the config value reduces it modulo `2 ^ 32`, and the
`heapSizeMB << 20` shift is carried out in 32-bit unsigned arithmetic,
wrapping modulo `2 ^ 32`. -/

/-- `reactNativeConfig ? reactNativeConfig->getInt64("ios_hermes:rn_heap_size_mb") : 0`. -/
def heapSizeConfig (reactNativeConfig : Option Int) : Int :=
  reactNativeConfig.getD 0

/-- `static_cast<::hermes::vm::gcheapsize_t>` applied to the `int64_t` config
value: conversion to the unsigned 32-bit `gcheapsize_t` reduces the value
modulo `2 ^ 32` (Euclidean mod, so the result is the canonical nonnegative
representative). -/
def toGcheapsize (v : Int) : Nat :=
  (v % (2 ^ 32 : Int)).toNat

/-- `heapSizeConfig > 0 ? static_cast<gcheapsize_t>(heapSizeConfig) : 3072`
("Default to 3GB if MobileConfigs is not available"); the ternary's common
type is `gcheapsize_t`, i.e. a 32-bit unsigned value. -/
def heapSizeMB (reactNativeConfig : Option Int) : Nat :=
  if heapSizeConfig reactNativeConfig > 0 then
    toGcheapsize (heapSizeConfig reactNativeConfig)
  else 3072

/-- The GC maximum heap size passed via `withMaxHeapSize(heapSizeMB << 20)`:
a left shift by 20 bits in 32-bit unsigned arithmetic, i.e. multiplication by
`2 ^ 20` (bytes per MB) wrapping modulo `2 ^ 32`. -/
def maxHeapSize (reactNativeConfig : Option Int) : Nat :=
  heapSizeMB reactNativeConfig * 2 ^ 20 % 2 ^ 32

/-! ## Theorems -/

/-- C2: for every request carrying an id whose domain/method pair is
unrecognized at every routing level (Page, Instance, Runtime), the frontend
receives an error response echoing that id with the well-known "method not
found" error code -32601. -/
theorem unknown_method_error (s : SessionState) (r : Request) (n : Nat)
    (hid : r.id = some n)
    (hpage : pageHandles r.domain r.method = false)
    (hinst : instanceHandles r.domain r.method = false)
    (hrt : runtimeHandles r.domain r.method = false) :
    (handleRequest s r).2 = [Event.errorResponse n methodNotFoundCode] := by
  simp [handleRequest, hpage, hinst, hrt, hid]

/-- Witness for C2 at the request of the in-repository test
`ErrorOnUnknownMethod`: `{"id": 1, "method": "Foobar.unknownMethod"}`. -/
theorem unknown_method_error_witness :
    pageHandles "Foobar" "unknownMethod" = false ∧
    instanceHandles "Foobar" "unknownMethod" = false ∧
    runtimeHandles "Foobar" "unknownMethod" = false ∧
    (handleRequest initialSessionState
        { id := some 1, domain := "Foobar", method := "unknownMethod",
          expression := none }).2 =
      [Event.errorResponse 1 methodNotFoundCode] :=
  ⟨by decide, by decide, by decide,
   unknown_method_error initialSessionState
     { id := some 1, domain := "Foobar", method := "unknownMethod",
       expression := none }
     1 rfl (by decide) (by decide) (by decide)⟩

/-- C3: every host-triggered reload on a connected session emits, in order, a
`Runtime.executionContextsCleared` notification followed by a
`Runtime.executionContextCreated` notification, and answers no request
meanwhile (no responses are emitted, so no request is lost or duplicated). -/
theorem reload_notification_sequence (s : SessionState) :
    (reloadPage s).2 =
      [Event.notification "Runtime.executionContextsCleared" none,
       Event.notification "Runtime.executionContextCreated"
         (some (s.lastExecutionContextId + 1))] ∧
    responseIds (reloadPage s).2 = [] := by
  constructor
  · rfl
  · simp [reloadPage, nextExecutionContextId, responseIds]

/-- C4: on a connected session with a live runtime, the request
`{"id":1,"method":"Runtime.evaluate","params":{"expression":"42"}}` yields
exactly the response
`{"id":1,"result":{"result":{"type":"number","value":42}}}`. -/
theorem evaluate_42_response (s : SessionState) :
    handleRequest s
        { id := some 1, domain := "Runtime", method := "evaluate",
          expression := some "42" } =
      (s, [Event.response 1 (ResultPayload.evalResult (RemoteObject.number 42))]) := by
  rfl

/-- C8: the notification ordering around `Runtime.enable` and reload is
intentionally loose: handling `Runtime.enable` emits the
`executionContextCreated` notification after the id-matched response that
logically preceded it, and the reload sequence contains no
`executionContextDestroyed` notification at all. -/
theorem loose_notification_ordering (s : SessionState) (n : Nat) :
    (handleRequest s
        { id := some n, domain := "Runtime", method := "enable",
          expression := none }).2 =
      [Event.response n ResultPayload.empty,
       Event.notification "Runtime.executionContextCreated"
         (some (s.lastExecutionContextId + 1))] ∧
    ∀ i, Event.notification "Runtime.executionContextDestroyed" i ∉
      (reloadPage s).2 := by
  constructor
  · rfl
  · intro i
    simp [reloadPage, nextExecutionContextId]

/-- C6: a callback scheduled through the weak-lifetime wrapper of
`HermesInstanceRuntimeAdapter::tickleJs` is silently dropped when its owning
runtime has been destroyed by the time it is due to run: it never executes and
has no observable side effect. -/
theorem scoped_callback_dropped_after_owner_destroyed (w : World)
    (weakRuntime : Nat) (hdead : w.alive weakRuntime = false) :
    tickleJsTask weakRuntime w = [] := by
  simp [tickleJsTask, weakLock, hdead]

/-- Witness for C6: in a world where the runtime is dead, the queued tickleJs
closure produces no effect. -/
theorem scoped_callback_dropped_witness :
    (World.mk fun _ => false).alive 0 = false ∧
    tickleJsTask 0 (World.mk fun _ => false) = [] :=
  ⟨rfl, scoped_callback_dropped_after_owner_destroyed (World.mk fun _ => false) 0 rfl⟩

/-- C9: a task posted through the runtime-task executor supplied by
`HermesJSRuntime::createAgentDelegate` is dropped without effect when the
message queue thread or the Hermes runtime is dead by the time the task would
run, and otherwise runs the wrapped function with the live runtime on that
thread. Liveness only shrinks between posting (`wPost`) and running
(`wRun`). -/
theorem runtime_task_executor_lifetime (wPost wRun : World)
    (msgQueueThread runtime : Nat)
    (hshrink : ∀ p, wRun.alive p = true → wPost.alive p = true) :
    runtimeTaskExecutor wPost wRun msgQueueThread runtime =
      if wRun.alive msgQueueThread && wRun.alive runtime then
        [TaskEffect.ranWithRuntime msgQueueThread runtime]
      else [] := by
  unfold runtimeTaskExecutor weakLock runOnQueue
  cases hpt : wPost.alive msgQueueThread with
  | false =>
      cases hrt : wRun.alive msgQueueThread with
      | false => simp [hrt]
      | true => exact absurd (hshrink msgQueueThread hrt) (by simp [hpt])
  | true =>
      cases hrt : wRun.alive msgQueueThread <;>
        cases hrr : wRun.alive runtime <;> simp [hrt, hrr]

/-- Witness for C9: with thread 0 and runtime 1 alive in both worlds, the
task runs with the live runtime on the thread. -/
theorem runtime_task_executor_lifetime_witness :
    runtimeTaskExecutor (World.mk fun _ => true) (World.mk fun _ => true) 0 1 =
      [TaskEffect.ranWithRuntime 0 1] :=
  runtime_task_executor_lifetime (World.mk fun _ => true)
    (World.mk fun _ => true) 0 1 (fun _ hp => hp)

/-- Counterexample to C10 as stated: the configured value 4096 is strictly
positive, yet the heap size is not `4096 * 2 ^ 20` bytes — the 32-bit shift
`heapSizeMB << 20` wraps `4096 * 2 ^ 20 = 2 ^ 32` around to a zero maximum
heap size. -/
theorem heap_size_configuration_counterexample :
    (0 : Int) < 4096 ∧ maxHeapSize (some 4096) = 0 ∧
    maxHeapSize (some 4096) ≠ 4096 * 2 ^ 20 := by
  decide

/-- C10 (amended): `HermesInstance::createJSRuntime` computes the Hermes GC
maximum heap size in the 32-bit unsigned `gcheapsize_t`: when the configured
value is strictly positive it equals the configured value truncated modulo
`2 ^ 32` and shifted left by 20 bits, wrapping modulo `2 ^ 32` — in
particular exactly `rn_heap_size_mb` megabytes (`v * 2 ^ 20` bytes) whenever
`0 < v < 4096` — and it is the default of 3072 MB when the configuration is
absent or the configured value is zero or negative. -/
theorem heap_size_configuration :
    (∀ v : Int, 0 < v →
      maxHeapSize (some v) = toGcheapsize v * 2 ^ 20 % 2 ^ 32) ∧
    (∀ v : Int, 0 < v → v < 4096 →
      maxHeapSize (some v) = v.toNat * 2 ^ 20) ∧
    maxHeapSize none = 3072 * 2 ^ 20 ∧
    (∀ v : Int, v ≤ 0 → maxHeapSize (some v) = 3072 * 2 ^ 20) := by
  have hbranch : ∀ v : Int, 0 < v →
      maxHeapSize (some v) = toGcheapsize v * 2 ^ 20 % 2 ^ 32 := by
    intro v hv
    simp [maxHeapSize, heapSizeMB, heapSizeConfig, hv]
  refine ⟨hbranch, fun v hv hlt => ?_, by decide, fun v hv => ?_⟩
  · rw [hbranch v hv]
    have hmod : v % (2 ^ 32 : Int) = v :=
      Int.emod_eq_of_lt (le_of_lt hv) (by omega)
    have ht : toGcheapsize v = v.toNat := by
      rw [toGcheapsize, hmod]
    have hsmall : v.toNat < 4096 := by omega
    rw [ht]
    have e20 : (2 : Nat) ^ 20 = 1048576 := by norm_num
    have e32 : (2 : Nat) ^ 32 = 4294967296 := by norm_num
    rw [e20, e32]
    omega
  · have hneg : ¬ heapSizeConfig (some v) > 0 := by
      simp [heapSizeConfig]
      omega
    simp [maxHeapSize, heapSizeMB, hneg]

/-- Witness for C10: a positive configured value of 5 MB yields exactly a 5 MB
heap; a configured value of -7 falls back to the 3072 MB default; the wrapped
branch evaluates at the configured value 4096. -/
theorem heap_size_configuration_witness :
    (0 : Int) < 5 ∧ maxHeapSize (some 5) = (5 : Int).toNat * 2 ^ 20 ∧
    (-7 : Int) ≤ 0 ∧ maxHeapSize (some (-7)) = 3072 * 2 ^ 20 ∧
    maxHeapSize (some 4096) = toGcheapsize 4096 * 2 ^ 20 % 2 ^ 32 :=
  ⟨by decide, heap_size_configuration.2.1 5 (by decide) (by decide),
   by decide, heap_size_configuration.2.2.2 (-7) (by decide),
   heap_size_configuration.1 4096 (by decide)⟩

/-- C1: for every request sent over a connected session, handling emits
exactly one response (success or error) carrying the request's id when the
request has one — never zero and never more than one — and no response at all
when the request is a notification (no id). -/
theorem request_answered_exactly_once (s : SessionState) (r : Request) :
    responseIds (handleRequest s r).2 = r.id.toList := by
  unfold handleRequest
  split
  · cases r.id <;>
      simp [handlePageReload, reloadPage, nextExecutionContextId, respond,
        responseIds]
  · split
    · rename_i hinst
      simp [instanceHandles] at hinst
    · split
      · split
        · cases r.id <;>
            simp [handleRuntimeEnable, nextExecutionContextId, respond,
              responseIds]
        · unfold handleRuntimeEvaluate
          cases h : r.expression.bind evalExpression <;>
            cases r.id <;> simp [h, respond, responseIds]
      · cases hid : r.id <;> simp [hid, responseIds]

/-- Once the session is torn down, further teardown calls leave the connection
state untouched. -/
theorem runTeardown_disconnected (k : Nat) (ops : List TeardownOp) :
    runTeardown { disconnected := true, onDisconnectCount := k } ops =
      { disconnected := true, onDisconnectCount := k } := by
  induction ops with
  | nil => rfl
  | cons op rest ih =>
      have h : applyTeardown { disconnected := true, onDisconnectCount := k } op =
          { disconnected := true, onDisconnectCount := k } := by
        cases op <;> rfl
      calc runTeardown { disconnected := true, onDisconnectCount := k } (op :: rest)
          = runTeardown (applyTeardown { disconnected := true, onDisconnectCount := k } op) rest := rfl
        _ = runTeardown { disconnected := true, onDisconnectCount := k } rest := by rw [h]
        _ = { disconnected := true, onDisconnectCount := k } := ih

/-- C5: disconnect is idempotent — any nonempty sequence of teardown calls
(explicit `disconnect()` calls and/or destruction of the local connection)
applied to a freshly connected session produces exactly one `onDisconnect`
observation on the remote connection, never zero and never more than one. -/
theorem disconnect_exactly_once (ops : List TeardownOp) (hne : ops ≠ []) :
    (runTeardown freshConnection ops).onDisconnectCount = 1 := by
  cases ops with
  | nil => exact absurd rfl hne
  | cons op rest =>
      have h : applyTeardown freshConnection op =
          { disconnected := true, onDisconnectCount := 1 } := by
        cases op <;> rfl
      calc (runTeardown freshConnection (op :: rest)).onDisconnectCount
          = (runTeardown (applyTeardown freshConnection op) rest).onDisconnectCount := rfl
        _ = (runTeardown { disconnected := true, onDisconnectCount := 1 } rest).onDisconnectCount := by rw [h]
        _ = 1 := by rw [runTeardown_disconnected]

/-- Witness for C5: calling `disconnect()` and then destroying the local
connection notifies the remote side exactly once. -/
theorem disconnect_exactly_once_witness :
    ([TeardownOp.disconnectCall, TeardownOp.destroyCall] : List TeardownOp) ≠ [] ∧
    (runTeardown freshConnection
        [TeardownOp.disconnectCall, TeardownOp.destroyCall]).onDisconnectCount = 1 :=
  ⟨by decide,
   disconnect_exactly_once [TeardownOp.disconnectCall, TeardownOp.destroyCall]
     (by decide)⟩

theorem issuedContextIds_append (l1 l2 : List Event) :
    issuedContextIds (l1 ++ l2) = issuedContextIds l1 ++ issuedContextIds l2 :=
  List.filterMap_append l1 l2 _

/-- One session step either issues no execution-context id and keeps the
counter, or issues exactly the next id and advances the counter to it. -/
theorem stepSession_issued (s : SessionState) (op : SessionOp) :
    (issuedContextIds (stepSession s op).2 = [] ∧
      (stepSession s op).1.lastExecutionContextId = s.lastExecutionContextId) ∨
    (issuedContextIds (stepSession s op).2 = [s.lastExecutionContextId + 1] ∧
      (stepSession s op).1.lastExecutionContextId = s.lastExecutionContextId + 1) := by
  cases op with
  | hostReload => exact Or.inr ⟨rfl, rfl⟩
  | request r =>
      simp only [stepSession]
      unfold handleRequest
      split
      · cases r.id <;> exact Or.inr ⟨rfl, rfl⟩
      · split
        · rename_i hinst
          simp [instanceHandles] at hinst
        · split
          · split
            · cases r.id <;> exact Or.inr ⟨rfl, rfl⟩
            · unfold handleRuntimeEvaluate
              cases h : r.expression.bind evalExpression <;>
                cases r.id <;> exact Or.inl ⟨rfl, rfl⟩
          · cases r.id <;> exact Or.inl ⟨rfl, rfl⟩

/-- A session step never decreases the execution-context counter. -/
theorem stepSession_counter_le (s : SessionState) (op : SessionOp) :
    s.lastExecutionContextId ≤ (stepSession s op).1.lastExecutionContextId := by
  rcases stepSession_issued s op with ⟨_, h⟩ | ⟨_, h⟩ <;> omega

theorem runSession_cons (s : SessionState) (op : SessionOp)
    (rest : List SessionOp) :
    runSession s (op :: rest) =
      ((runSession (stepSession s op).1 rest).1,
       (stepSession s op).2 ++ (runSession (stepSession s op).1 rest).2) :=
  rfl

/-- A session trace never decreases the execution-context counter. -/
theorem runSession_counter_le (s : SessionState) (ops : List SessionOp) :
    s.lastExecutionContextId ≤ (runSession s ops).1.lastExecutionContextId := by
  induction ops generalizing s with
  | nil => exact le_refl _
  | cons op rest ih =>
      calc s.lastExecutionContextId
          ≤ (stepSession s op).1.lastExecutionContextId := stepSession_counter_le s op
        _ ≤ (runSession (stepSession s op).1 rest).1.lastExecutionContextId := ih _
        _ = (runSession s (op :: rest)).1.lastExecutionContextId := by
            rw [runSession_cons]

/-- Every execution-context id issued along a session trace is strictly above
the counter the trace started from and at most the final counter. -/
theorem runSession_issued_bounds (s : SessionState) (ops : List SessionOp) :
    ∀ i ∈ issuedContextIds (runSession s ops).2,
      s.lastExecutionContextId < i ∧
      i ≤ (runSession s ops).1.lastExecutionContextId := by
  induction ops generalizing s with
  | nil =>
      intro i hi
      simp [runSession, issuedContextIds] at hi
  | cons op rest ih =>
      intro i hi
      have hsplit : issuedContextIds (runSession s (op :: rest)).2 =
          issuedContextIds (stepSession s op).2 ++
            issuedContextIds (runSession (stepSession s op).1 rest).2 := by
        rw [runSession_cons]
        exact issuedContextIds_append _ _
      rw [hsplit, List.mem_append] at hi
      have hfst : (runSession s (op :: rest)).1 =
          (runSession (stepSession s op).1 rest).1 := rfl
      rw [hfst]
      rcases hi with hi | hi
      · rcases stepSession_issued s op with ⟨he, hc⟩ | ⟨he, hc⟩
        · rw [he] at hi
          simp at hi
        · rw [he] at hi
          simp at hi
          subst hi
          have hrest := runSession_counter_le (stepSession s op).1 rest
          exact ⟨Nat.lt_succ_self _, by omega⟩
      · have h2 := ih (stepSession s op).1 i hi
        have h1 := stepSession_counter_le s op
        exact ⟨lt_of_le_of_lt h1 h2.1, h2.2⟩

/-- C7: within one session, the execution-context ids issued along any trace
of operations (requests and host-triggered reloads) are strictly increasing in
emission order; in particular an id already issued in the session is never
issued again, even across multiple runtime reloads. -/
theorem execution_context_ids_strictly_increasing (s : SessionState)
    (ops : List SessionOp) :
    List.Pairwise (· < ·) (issuedContextIds (runSession s ops).2) := by
  induction ops generalizing s with
  | nil => simp [runSession, issuedContextIds]
  | cons op rest ih =>
      have hsplit : issuedContextIds (runSession s (op :: rest)).2 =
          issuedContextIds (stepSession s op).2 ++
            issuedContextIds (runSession (stepSession s op).1 rest).2 := by
        rw [runSession_cons]
        exact issuedContextIds_append _ _
      rw [hsplit]
      apply List.pairwise_append.mpr
      refine ⟨?_, ih _, ?_⟩
      · rcases stepSession_issued s op with ⟨he, _⟩ | ⟨he, _⟩ <;> rw [he] <;> simp
      · intro a ha b hb
        rcases stepSession_issued s op with ⟨he, hc⟩ | ⟨he, hc⟩
        · rw [he] at ha
          simp at ha
        · rw [he] at ha
          simp at ha
          subst ha
          have hb' := runSession_issued_bounds (stepSession s op).1 rest b hb
          omega

end RnInspector
